import Mathlib

/-! Verification of the kwh-btc-iot Merkle batching core.

Shallow embedding of the repository's commitment engine: the Merkle
functions of `app/merkle.py`, the storage operations of `app/storage.py`
that the batching logic uses, the batch assembly of `app/batching.py`, and
the proof endpoint of `app/main.py`.  Bytes are `List Nat` (each entry a
byte value), machine words are `Nat` reduced modulo `2 ^ 32` where Python's
fixed-width hash arithmetic overflows, and hex digests are Lean `String`s,
as in the Python source where they are `str`.
-/

namespace KwhBtcIot

/-! ## SHA-256 (the `hashlib.sha256(...).hexdigest()` primitive)

Standard FIPS 180-4 SHA-256 over a byte list, producing a lowercase hex
digest, exactly the primitive `app/merkle.py` calls.  All recursion is
structural so every digest is kernel-computable. -/

def M32 : Nat := 4294967296

def rotr32 (x n : Nat) : Nat :=
  ((x >>> n) ||| (x <<< (32 - n))) % M32

def shaCh (x y z : Nat) : Nat :=
  Nat.xor (x &&& y) (z &&& (x ^^^ 4294967295))

def shaMaj (x y z : Nat) : Nat :=
  Nat.xor (Nat.xor (x &&& y) (x &&& z)) (y &&& z)

def bigSigma0 (x : Nat) : Nat :=
  Nat.xor (Nat.xor (rotr32 x 2) (rotr32 x 13)) (rotr32 x 22)

def bigSigma1 (x : Nat) : Nat :=
  Nat.xor (Nat.xor (rotr32 x 6) (rotr32 x 11)) (rotr32 x 25)

def smallSigma0 (x : Nat) : Nat :=
  Nat.xor (Nat.xor (rotr32 x 7) (rotr32 x 18)) (x >>> 3)

def smallSigma1 (x : Nat) : Nat :=
  Nat.xor (Nat.xor (rotr32 x 17) (rotr32 x 19)) (x >>> 10)

def shaK : List Nat :=
  [1116352408, 1899447441, 3049323471, 3921009573, 961987163,
   1508970993, 2453635748, 2870763221, 3624381080, 310598401,
   607225278, 1426881987, 1925078388, 2162078206, 2614888103,
   3248222580, 3835390401, 4022224774, 264347078, 604807628,
   770255983, 1249150122, 1555081692, 1996064986, 2554220882,
   2821834349, 2952996808, 3210313671, 3336571891, 3584528711,
   113926993, 338241895, 666307205, 773529912, 1294757372,
   1396182291, 1695183700, 1986661051, 2177026350, 2456956037,
   2730485921, 2820302411, 3259730800, 3345764771, 3516065817,
   3600352804, 4094571909, 275423344, 430227734, 506948616,
   659060556, 883997877, 958139571, 1322822218, 1537002063,
   1747873779, 1955562222, 2024104815, 2227730452, 2361852424,
   2428436474, 2756734187, 3204031479, 3329325298]

/-- One word-extension step of the SHA-256 message schedule. -/
def scheduleStep (ws : List Nat) : List Nat :=
  ws ++ [(smallSigma1 (ws.getD (ws.length - 2) 0) + ws.getD (ws.length - 7) 0 +
          smallSigma0 (ws.getD (ws.length - 15) 0) + ws.getD (ws.length - 16) 0) % M32]

/-- Extend the 16 block words by `n` further schedule words. -/
def scheduleExtend (ws : List Nat) : Nat → List Nat
  | 0 => ws
  | n + 1 => scheduleStep (scheduleExtend ws n)

structure SHAState where
  sa : Nat
  sb : Nat
  sc : Nat
  sd : Nat
  se : Nat
  sf : Nat
  sg : Nat
  sh : Nat
deriving Repr, DecidableEq

def shaInit : SHAState :=
  ⟨1779033703, 3144134277, 1013904242, 2773480762,
   1359893119, 2600822924, 528734635, 1541459225⟩

/-- One compression round; `kw` is `(K[t] + W[t]) mod 2^32`. -/
def shaRound (st : SHAState) (kw : Nat) : SHAState :=
  let t1 := (st.sh + bigSigma1 st.se + shaCh st.se st.sf st.sg + kw) % M32
  let t2 := (bigSigma0 st.sa + shaMaj st.sa st.sb st.sc) % M32
  ⟨(t1 + t2) % M32, st.sa, st.sb, st.sc, (st.sd + t1) % M32, st.se, st.sf, st.sg⟩

/-- Compress one 16-word block into the running hash state. -/
def shaCompress (hs : SHAState) (block : List Nat) : SHAState :=
  let w := scheduleExtend block 48
  let fin := (shaK.zip w).foldl (fun st kw => shaRound st ((kw.1 + kw.2) % M32)) hs
  ⟨(hs.sa + fin.sa) % M32, (hs.sb + fin.sb) % M32, (hs.sc + fin.sc) % M32,
   (hs.sd + fin.sd) % M32, (hs.se + fin.se) % M32, (hs.sf + fin.sf) % M32,
   (hs.sg + fin.sg) % M32, (hs.sh + fin.sh) % M32⟩

/-- Big-endian 4-byte groups to 32-bit words. -/
def bytesToWords : List Nat → List Nat
  | a :: b :: c :: d :: rest => (a * 16777216 + b * 65536 + c * 256 + d) :: bytesToWords rest
  | _ => []

/-- Split a word list into 16-word blocks. -/
def wordsToBlocks : List Nat → List (List Nat)
  | w0 :: w1 :: w2 :: w3 :: w4 :: w5 :: w6 :: w7 ::
    w8 :: w9 :: w10 :: w11 :: w12 :: w13 :: w14 :: w15 :: rest =>
      [w0, w1, w2, w3, w4, w5, w6, w7, w8, w9, w10, w11, w12, w13, w14, w15] ::
        wordsToBlocks rest
  | _ => []

/-- Big-endian 8-byte encoding of the bit length. -/
def lengthBytes (l : Nat) : List Nat :=
  let b := 8 * l
  [b >>> 56 % 256, b >>> 48 % 256, b >>> 40 % 256, b >>> 32 % 256,
   b >>> 24 % 256, b >>> 16 % 256, b >>> 8 % 256, b % 256]

/-- FIPS 180-4 padding: `0x80`, zeros to 56 mod 64, then the bit length. -/
def shaPad (msg : List Nat) : List Nat :=
  let z := (55 + 64 - msg.length % 64) % 64
  msg ++ [128] ++ List.replicate z 0 ++ lengthBytes msg.length

/-- SHA-256 state of a byte message. -/
def sha256Words (msg : List Nat) : SHAState :=
  (wordsToBlocks (bytesToWords (shaPad msg))).foldl shaCompress shaInit

def hexDigit (n : Nat) : Char :=
  if n < 10 then Char.ofNat (48 + n) else Char.ofNat (87 + n)

/-- Lowercase hex of one 32-bit word, big-endian nibbles. -/
def wordHexChars (w : Nat) : List Char :=
  [hexDigit (w >>> 28 % 16), hexDigit (w >>> 24 % 16), hexDigit (w >>> 20 % 16),
   hexDigit (w >>> 16 % 16), hexDigit (w >>> 12 % 16), hexDigit (w >>> 8 % 16),
   hexDigit (w >>> 4 % 16), hexDigit (w % 16)]

/-- Model of `hashlib.sha256(data).hexdigest()`: lowercase hex digest of a byte list. -/
def sha256_hex (data : List Nat) : String :=
  let hs := sha256Words data
  String.mk (([hs.sa, hs.sb, hs.sc, hs.sd, hs.se, hs.sf, hs.sg, hs.sh].map
    wordHexChars).flatten)

/-! ## Hex decoding (`bytes.fromhex`)

Total model of `bytes.fromhex`: every claim quantifies over well-formed hex
digests, so the `ValueError` Python raises on malformed hex input is outside
the claims; on malformed input this total function returns junk bytes. -/

def hexVal (c : Char) : Nat :=
  if 48 ≤ c.toNat ∧ c.toNat ≤ 57 then c.toNat - 48
  else if 97 ≤ c.toNat ∧ c.toNat ≤ 102 then c.toNat - 87
  else if 65 ≤ c.toNat ∧ c.toNat ≤ 70 then c.toNat - 55
  else 0

def bytesFromHexChars : List Char → List Nat
  | a :: b :: rest => (16 * hexVal a + hexVal b) :: bytesFromHexChars rest
  | _ => []

/-- Model of `bytes.fromhex(s)` on well-formed hex strings. -/
def bytesFromHex (s : String) : List Nat :=
  bytesFromHexChars s.data

def isHexChar (c : Char) : Bool :=
  (48 ≤ c.toNat && c.toNat ≤ 57) || (97 ≤ c.toNat && c.toNat ≤ 102) ||
  (65 ≤ c.toNat && c.toNat ≤ 70)

/-- A 64-character hex digest, the `HashHex` strings of `app/merkle.py`. -/
def isHex64 (s : String) : Bool :=
  s.length == 64 && s.data.all isHexChar

/-! ## `app/merkle.py`

`HashHex` is a hex-encoded digest string.  `leaf_hash_from_payload`,
`build_merkle_root`, `build_merkle_proof` and `verify_merkle_proof` are the
four functions of the module.  The `while len(level) > 1` loops become
recursion on the level, which strictly shrinks each iteration. -/

/-- Model of `leaf_hash_from_payload`: domain-separated digest of a canonical payload. -/
def leaf_hash_from_payload (payload : List Nat) : String :=
  sha256_hex ("LOG::".data.map Char.toNat ++ payload)

/-- The parent combination of `merkle.py` (lines 34-35, 68, 72):
`sha256_hex(bytes.fromhex(left) + bytes.fromhex(right))`. -/
def combineHex (left right : String) : String :=
  sha256_hex (bytesFromHex left ++ bytesFromHex right)

/-- Lines 29-30 / 54-55: a level of odd length appends a copy of its last
element before pairing. -/
def padEven (level : List String) : List String :=
  if level.length % 2 = 1 then level ++ [level.getLastD ""] else level

/-- Lines 33-35 / 58-73, the pairing pass `for i in range(0, len(level), 2)`:
hash adjacent pairs.  The input always has even length (it has been padded),
so the one-element case never arises. -/
def hashPairs : List String → List String
  | x :: y :: rest => combineHex x y :: hashPairs rest
  | _ => []

/-- The `while len(level) > 1` loop of `build_merkle_root`; afterwards the
single surviving element `level[0]` is returned. -/
def reduceRoot (level : List String) : String :=
  if 1 < level.length then reduceRoot (hashPairs (padEven level))
  else level.headD ""
termination_by level.length
decreasing_by
  have hp : ∀ n (l : List String), l.length ≤ n → (hashPairs l).length = l.length / 2 := by
    intro n
    induction n with
    | zero =>
      intro l hl
      rcases l with _ | ⟨x, t⟩
      · simp [hashPairs]
      · simp at hl
    | succ n ih =>
      intro l hl
      rcases l with _ | ⟨x, _ | ⟨y, rest⟩⟩
      · simp [hashPairs]
      · simp [hashPairs]
      · have hr := ih rest (by simp at hl; omega)
        simp [hashPairs, hr]
        omega
  rw [hp ((padEven level).length) _ le_rfl]
  by_cases hodd : level.length % 2 = 1
  · rw [padEven, if_pos hodd]
    simp only [List.length_append, List.length_cons, List.length_nil]
    omega
  · rw [padEven, if_neg hodd]
    omega

/-- Model of `build_merkle_root` (lines 22-38). -/
def build_merkle_root (leaves : List String) : String :=
  if leaves = [] then String.mk (List.replicate 64 '0')
  else reduceRoot leaves

/-- One position-and-sibling-hash dict of a Merkle proof. -/
structure ProofStep where
  position : String
  hash : String
deriving Repr, DecidableEq

/-- Lines 58-73: scan the pairs of one (already padded) level for the pair
containing the tracked index and record its sibling step.  Returns `none`
when the index is beyond the level, which never happens on valid input. -/
def proofStepOfLevel : List String → Nat → Option ProofStep
  | x :: y :: rest, idx =>
      if idx = 0 then some ⟨"right", y⟩
      else if idx = 1 then some ⟨"left", x⟩
      else proofStepOfLevel rest (idx - 2)
  | _, _ => none

/-- The `while len(level) > 1` loop of `build_merkle_proof`: per level, pad,
record the tracked index's sibling, and continue on the hashed level with the
parent index `idx / 2` (the source's `idx = len(next_level) - 1` at the
moment the tracked pair `(i, i+1)` is reduced, i.e. `i / 2`). -/
def buildProofLoop (level : List String) (idx : Nat) : List ProofStep :=
  if 1 < level.length then
    (match proofStepOfLevel (padEven level) idx with
      | some s => [s]
      | none => []) ++ buildProofLoop (hashPairs (padEven level)) (idx / 2)
  else []
termination_by level.length
decreasing_by
  have hp : ∀ n (l : List String), l.length ≤ n → (hashPairs l).length = l.length / 2 := by
    intro n
    induction n with
    | zero =>
      intro l hl
      rcases l with _ | ⟨x, t⟩
      · simp [hashPairs]
      · simp at hl
    | succ n ih =>
      intro l hl
      rcases l with _ | ⟨x, _ | ⟨y, rest⟩⟩
      · simp [hashPairs]
      · simp [hashPairs]
      · have hr := ih rest (by simp at hl; omega)
        simp [hashPairs, hr]
        omega
  rw [hp ((padEven level).length) _ le_rfl]
  by_cases hodd : level.length % 2 = 1
  · rw [padEven, if_pos hodd]
    simp only [List.length_append, List.length_cons, List.length_nil]
    omega
  · rw [padEven, if_neg hodd]
    omega

/-- Model of `build_merkle_proof` (lines 41-77); `raise IndexError` becomes `none`.
(An index below zero is not representable; the source's `index < 0` check
cannot fire for a `Nat` index.) -/
def build_merkle_proof (leaves : List String) (index : Nat) : Option (List ProofStep) :=
  if index < leaves.length then some (buildProofLoop leaves index)
  else none

/-- The `for step in proof` fold of `verify_merkle_proof` (lines 82-91);
`raise ValueError` on an unknown position becomes `Except.error`. -/
def verifyFold (current : String) : List ProofStep → Except String String
  | [] => .ok current
  | step :: rest =>
      if step.position = "left" then verifyFold (combineHex step.hash current) rest
      else if step.position = "right" then verifyFold (combineHex current step.hash) rest
      else .error ("Invalid proof position: " ++ step.position)

/-- Model of `verify_merkle_proof` (lines 80-92). -/
def verify_merkle_proof (leaf root : String) (proof : List ProofStep) :
    Except String Bool :=
  (verifyFold leaf proof).map (fun current => current == root)

/-! ## `app/models.py` and the SQLite schema of `app/storage.py`

`datetime` values are a plain record of calendar fields; only `strftime`
formatting (for batch ids) and ordering matter to the claims.  A stored log
row keeps the engine-relevant columns `id`, `ts_start`, `batch_id` and
`leaf_hash`; the immutable business columns (`meter_id`, `site_id`,
`iot_device_id`, `ts_end`, `interval_s`, `raw_json`) are never read by the
batching, proof, or root logic and are abstracted away.  `ts_start` is
stored as `isoformat()` text and compared by SQLite's text collation, which
on fixed-format ISO-8601 text coincides with chronological order; it is
modelled as a `Nat` timestamp ordered by `≤`. -/

structure Datetime where
  year : Nat
  month : Nat
  day : Nat
  hour : Nat
  minute : Nat
  second : Nat
  microsecond : Nat
deriving Repr, DecidableEq

/-- Zero-padded two-digit field of `strftime` (`%m`, `%d`, `%H`, `%M`, `%S`). -/
def pad2 (n : Nat) : String :=
  if n < 10 then "0" ++ toString n else toString n

/-- Zero-padded four-digit year of `strftime` (`%Y`). -/
def pad4 (n : Nat) : String :=
  if n < 10 then "000" ++ toString n
  else if n < 100 then "00" ++ toString n
  else if n < 1000 then "0" ++ toString n
  else toString n

/-- The batch id mint of `app/batching.py` line 21, strftime format
batch_%Y-%m-%dT%H-%M-%S:
second granularity, the microsecond field is not rendered. -/
def batchIdOf (now : Datetime) : String :=
  "batch_" ++ pad4 now.year ++ "-" ++ pad2 now.month ++ "-" ++ pad2 now.day ++
  "T" ++ pad2 now.hour ++ "-" ++ pad2 now.minute ++ "-" ++ pad2 now.second

/-- Mixed-radix key giving `datetime`'s (equivalently ISO text) order. -/
def dtKey (d : Datetime) : Nat :=
  ((((d.year * 13 + d.month) * 32 + d.day) * 25 + d.hour) * 61 + d.minute) * 61
    * 1000000 + d.second * 1000000 + d.microsecond

/-- A row of the `energy_logs` table (= `EnergyLog` as far as the engine
reads it): primary key `id`, ordering key `ts_start`, and the two
engine-owned fields `leaf_hash` and `batch_id`. -/
structure EnergyLog where
  id : String
  ts_start : Nat
  leaf_hash : String
  batch_id : Option String
deriving Repr, DecidableEq

/-- The `EnergyBatch` pydantic model of `app/models.py`. -/
structure EnergyBatch where
  id : String
  created_at : Datetime
  log_ids : List String
  merkle_root : String
  log_count : Nat
  anchor_status : String
  anchor_txid : Option String
  anchor_block_hash : Option String
  anchor_block_height : Option Nat
  anchor_block_time : Option Datetime
deriving Repr, DecidableEq

/-- A row of the `energy_batches` table: note there is no `log_ids` column;
membership lives only on the logs' `batch_id` column. -/
structure BatchRow where
  id : String
  created_at : Datetime
  log_count : Nat
  merkle_root : String
  anchor_status : String
  anchor_txid : Option String
  anchor_block_hash : Option String
  anchor_block_height : Option Nat
  anchor_block_time : Option Datetime
deriving Repr, DecidableEq

/-- The SQLite database: both tables, rows in insertion (rowid) order. -/
structure Storage where
  energy_logs : List EnergyLog
  energy_batches : List BatchRow
deriving Repr, DecidableEq

/-! ### `SQLiteStorage` operations (`app/storage.py`) -/

/-- Model of `save_log`: `INSERT OR REPLACE` keyed on `id` (a conflicting row is
deleted and the new row inserted). -/
def save_log (st : Storage) (log : EnergyLog) : Storage :=
  { st with energy_logs := st.energy_logs.filter (fun l => !(l.id == log.id)) ++ [log] }

/-- Insert a row behind every earlier row whose key is not larger: one step
of a stable sort. -/
def insertByTs (x : EnergyLog) : List EnergyLog → List EnergyLog
  | [] => [x]
  | y :: rest =>
      if y.ts_start ≤ x.ts_start then y :: insertByTs x rest else x :: y :: rest

/-- Model of `ORDER BY ts_start ASC` (a stable sort of the scanned rows, as SQLite's
ordering of a fixed table is deterministic). -/
def sortByTsStart : List EnergyLog → List EnergyLog
  | [] => []
  | x :: rest => insertByTs x (sortByTsStart rest)

/-- Model of `get_unbatched_logs`: `WHERE batch_id IS NULL ORDER BY ts_start ASC`. -/
def get_unbatched_logs (st : Storage) : List EnergyLog :=
  sortByTsStart (st.energy_logs.filter (fun l => l.batch_id == none))

/-- Model of `get_log`: `WHERE id = ?`, first matching row or `None`. -/
def get_log (st : Storage) (log_id : String) : Option EnergyLog :=
  st.energy_logs.find? (fun l => l.id == log_id)

/-- Model of `get_logs_by_batch`: `WHERE batch_id = ? ORDER BY ts_start ASC`. -/
def get_logs_by_batch (st : Storage) (batch_id : String) : List EnergyLog :=
  sortByTsStart (st.energy_logs.filter (fun l => l.batch_id == some batch_id))

/-- Model of `set_batch_for_logs`: `UPDATE energy_logs SET batch_id = ? WHERE id IN
(...)`, after the `if not log_ids: return` early exit. -/
def set_batch_for_logs (st : Storage) (batch_id : String) (log_ids : List String) :
    Storage :=
  if log_ids = [] then st
  else { st with
    energy_logs := st.energy_logs.map (fun l =>
      if l.id ∈ log_ids then { l with batch_id := some batch_id } else l) }

/-- Model of `save_batch`: `INSERT OR REPLACE INTO energy_batches` keyed on `id`;
the `log_ids` field of the `EnergyBatch` object is not persisted. -/
def save_batch (st : Storage) (batch : EnergyBatch) : Storage :=
  { st with
    energy_batches := st.energy_batches.filter (fun b => !(b.id == batch.id)) ++
      [{ id := batch.id, created_at := batch.created_at, log_count := batch.log_count,
         merkle_root := batch.merkle_root, anchor_status := batch.anchor_status,
         anchor_txid := batch.anchor_txid, anchor_block_hash := batch.anchor_block_hash,
         anchor_block_height := batch.anchor_block_height,
         anchor_block_time := batch.anchor_block_time }] }

/-- Model of `_batch_from_row`: rebuild an `EnergyBatch` from a row; `log_ids` is
filled with the literal empty list (`# derive via get_logs_by_batch if
needed`). -/
def batch_from_row (row : BatchRow) : EnergyBatch :=
  { id := row.id, created_at := row.created_at, log_ids := [],
    merkle_root := row.merkle_root, log_count := row.log_count,
    anchor_status := row.anchor_status, anchor_txid := row.anchor_txid,
    anchor_block_hash := row.anchor_block_hash,
    anchor_block_height := row.anchor_block_height,
    anchor_block_time := row.anchor_block_time }

/-- Model of `get_batch`: `WHERE id = ?`, first matching row through `_batch_from_row`. -/
def get_batch (st : Storage) (batch_id : String) : Option EnergyBatch :=
  (st.energy_batches.find? (fun b => b.id == batch_id)).map batch_from_row

/-- One step of the stable `ORDER BY created_at DESC` sort. -/
def insertByCreatedDesc (x : BatchRow) : List BatchRow → List BatchRow
  | [] => [x]
  | y :: rest =>
      if dtKey x.created_at ≤ dtKey y.created_at then
        y :: insertByCreatedDesc x rest
      else x :: y :: rest

/-- Stable sort of batch rows, newest `created_at` first. -/
def sortByCreatedDesc : List BatchRow → List BatchRow
  | [] => []
  | x :: rest => insertByCreatedDesc x (sortByCreatedDesc rest)

/-- Model of `list_batches`: `ORDER BY created_at DESC` through `_batch_from_row`. -/
def list_batches (st : Storage) : List EnergyBatch :=
  (sortByCreatedDesc st.energy_batches).map batch_from_row

/-! ## `app/batching.py` -/

/-- Model of `flush_batch`: storage is threaded explicitly; `datetime.utcnow()` is a
parameter (`now = now or datetime.utcnow()`); `raise ValueError(...)`
becomes `Except.error`.  Returns the new batch, the included logs, and the
updated storage. -/
def flush_batch (st : Storage) (now : Datetime) :
    Except String (EnergyBatch × List EnergyLog × Storage) :=
  let logs := get_unbatched_logs st
  if logs = [] then .error "No unbatched logs available"
  else
    let batch_id := batchIdOf now
    let leaves := logs.map (fun l => l.leaf_hash)
    let merkle_root := build_merkle_root leaves
    let log_ids := logs.map (fun l => l.id)
    let batch : EnergyBatch :=
      { id := batch_id, created_at := now, log_ids := log_ids,
        merkle_root := merkle_root, log_count := log_ids.length,
        anchor_status := "pending", anchor_txid := none,
        anchor_block_hash := none, anchor_block_height := none,
        anchor_block_time := none }
    let st1 := save_batch st batch
    let st2 := set_batch_for_logs st1 batch_id log_ids
    .ok (batch, logs, st2)

/-! ## `app/main.py`: the proof endpoint -/

/-- The `MerkleProofResponse` body of the per-log proof endpoint. -/
structure MerkleProofResponse where
  log_id : String
  batch_id : String
  leaf_hash : String
  merkle_root : String
  index : Nat
  proof : List ProofStep
deriving Repr, DecidableEq

/-- An `HTTPException`: status code and detail string. -/
structure HttpError where
  status : Nat
  detail : String
deriving Repr, DecidableEq

/-- Model of `get_log_proof` (`app/main.py` lines 360-403).  `list.index` raising
`ValueError` is the `findIdx? = none` branch; the uncaught `IndexError`
`build_merkle_proof` would raise on an invalid index surfaces as a 500 and
is unreachable because the index comes from a successful search. -/
def get_log_proof (st : Storage) (log_id : String) :
    Except HttpError MerkleProofResponse :=
  match get_log st log_id with
  | none => .error ⟨404, "Log not found"⟩
  | some log =>
    match log.batch_id with
    | none => .error ⟨400, "Log has not been assigned to a batch yet"⟩
    | some bid =>
      match get_batch st bid with
      | none => .error ⟨404, "Batch not found"⟩
      | some batch =>
        let batch_logs := get_logs_by_batch st bid
        let leaf_list := batch_logs.map (fun l => l.leaf_hash)
        match List.findIdx? (fun i => i == log_id) (batch_logs.map (fun l => l.id)) with
        | none => .error ⟨500, "Log not found in its own batch"⟩
        | some index =>
          let recomputed_root := build_merkle_root leaf_list
          if recomputed_root ≠ batch.merkle_root then
            .error ⟨500, "Merkle root mismatch for batch; stored root may be inconsistent"⟩
          else
            match build_merkle_proof leaf_list index with
            | none => .error ⟨500, "Leaf index out of range"⟩
            | some proof =>
              .ok { log_id := log_id, batch_id := bid, leaf_hash := log.leaf_hash,
                    merkle_root := batch.merkle_root, index := index, proof := proof }

/-! ## Spec-side verifier fold (for the refinement claim about
`verify_merkle_proof`) -/

/-- Modelled from the spec: the verify fold of section 4.2: start with
`current = leaf`;
for each proof step in order, if `position == "left"` compute `current =
SHA-256(sibling_raw || current_raw)`; if `position == "right"` compute
`current = SHA-256(current_raw || sibling_raw)`; any other position value
is an `InvalidProofStep` error."  Returns the final `current`, or `none`
for `InvalidProofStep`. -/
def specFoldCurrent : String → List ProofStep → Option String
  | current, [] => some current
  | current, step :: rest =>
      if step.position = "left" then
        specFoldCurrent (sha256_hex (bytesFromHex step.hash ++ bytesFromHex current)) rest
      else if step.position = "right" then
        specFoldCurrent (sha256_hex (bytesFromHex current ++ bytesFromHex step.hash)) rest
      else none

/-! ## Concrete scenario fixtures

Small storage states used to exercise the operations on explicit inputs:
one ingested log, one flush at `dtA`, a second ingested log, and a second
flush in the same second. -/

def dtA : Datetime := ⟨2024, 1, 2, 3, 4, 5, 0⟩

/-- Same calendar second as `dtA`, different microsecond. -/
def dtASameSec : Datetime := ⟨2024, 1, 2, 3, 4, 5, 999999⟩

def dtB : Datetime := ⟨2024, 1, 2, 3, 4, 6, 0⟩

def leafA : String := "aaaaaaaaaaaaaaaaaaaaaaaaaaaaaaaaaaaaaaaaaaaaaaaaaaaaaaaaaaaaaaaa"

def leafB : String := "bbbbbbbbbbbbbbbbbbbbbbbbbbbbbbbbbbbbbbbbbbbbbbbbbbbbbbbbbbbbbbbb"

def log1 : EnergyLog :=
  { id := "log_1", ts_start := 0, leaf_hash := leafA, batch_id := none }

def log2 : EnergyLog :=
  { id := "log_2", ts_start := 1, leaf_hash := leafB, batch_id := none }

/-- One unbatched log. -/
def st0 : Storage := { energy_logs := [log1], energy_batches := [] }

def batch1 : EnergyBatch :=
  { id := batchIdOf dtA, created_at := dtA, log_ids := ["log_1"],
    merkle_root := build_merkle_root [leafA], log_count := 1,
    anchor_status := "pending", anchor_txid := none, anchor_block_hash := none,
    anchor_block_height := none, anchor_block_time := none }

def row1 : BatchRow :=
  { id := batchIdOf dtA, created_at := dtA, log_count := 1,
    merkle_root := build_merkle_root [leafA], anchor_status := "pending",
    anchor_txid := none, anchor_block_hash := none,
    anchor_block_height := none, anchor_block_time := none }

def log1s : EnergyLog := { log1 with batch_id := some (batchIdOf dtA) }

/-- The store `st0` after `flush_batch` at `dtA`. -/
def st1 : Storage := { energy_logs := [log1s], energy_batches := [row1] }

/-- The store `st1` after ingesting `log2`. -/
def st2 : Storage := { energy_logs := [log1s, log2], energy_batches := [row1] }

def batch2 : EnergyBatch :=
  { id := batchIdOf dtA, created_at := dtA, log_ids := ["log_2"],
    merkle_root := build_merkle_root [leafB], log_count := 1,
    anchor_status := "pending", anchor_txid := none, anchor_block_hash := none,
    anchor_block_height := none, anchor_block_time := none }

def row2 : BatchRow :=
  { id := batchIdOf dtA, created_at := dtA, log_count := 1,
    merkle_root := build_merkle_root [leafB], anchor_status := "pending",
    anchor_txid := none, anchor_block_hash := none,
    anchor_block_height := none, anchor_block_time := none }

def log2s : EnergyLog := { log2 with batch_id := some (batchIdOf dtA) }

/-- The store `st2` after a second `flush_batch` whose `now` falls in the
same second as `dtA`:
the colliding batch id replaced `row1` and both logs now carry it. -/
def st3 : Storage := { energy_logs := [log1s, log2s], energy_batches := [row2] }

/-- A log stamped with a batch id whose batch row is absent. -/
def stOrphan : Storage := { energy_logs := [log1s], energy_batches := [] }

def logX : EnergyLog :=
  { id := "log_1", ts_start := 0, leaf_hash := leafA, batch_id := some "batch_x" }

/-- A batch row whose stored root does not match its member leaves. -/
def rowX : BatchRow :=
  { id := "batch_x", created_at := dtA, log_count := 1, merkle_root := leafB,
    anchor_status := "pending", anchor_txid := none, anchor_block_hash := none,
    anchor_block_height := none, anchor_block_time := none }

def stCorrupt : Storage := { energy_logs := [logX], energy_batches := [rowX] }

/-- Stored batch row for the collision demonstration (literal root). -/
def rowC4old : BatchRow :=
  { id := batchIdOf dtA, created_at := dtA, log_count := 1,
    merkle_root := leafA, anchor_status := "pending", anchor_txid := none,
    anchor_block_hash := none, anchor_block_height := none,
    anchor_block_time := none }

/-- A later batch minted in the same second as `rowC4old` (literal root). -/
def batchC4new : EnergyBatch :=
  { id := batchIdOf dtASameSec, created_at := dtASameSec, log_ids := ["log_2"],
    merkle_root := leafB, log_count := 1, anchor_status := "pending",
    anchor_txid := none, anchor_block_hash := none,
    anchor_block_height := none, anchor_block_time := none }

def rowC4new : BatchRow :=
  { id := batchIdOf dtASameSec, created_at := dtASameSec, log_count := 1,
    merkle_root := leafB, anchor_status := "pending", anchor_txid := none,
    anchor_block_hash := none, anchor_block_height := none,
    anchor_block_time := none }

/-! ## Lemmas about the Merkle level reduction -/

theorem hashPairs_length : ∀ l : List String, (hashPairs l).length = l.length / 2
  | [] => by simp [hashPairs]
  | [x] => by simp [hashPairs]
  | x :: y :: rest => by
      have ih := hashPairs_length rest
      simp [hashPairs, ih]
      omega

theorem length_padEven (l : List String) :
    (padEven l).length = if l.length % 2 = 1 then l.length + 1 else l.length := by
  rw [padEven]
  split <;> simp

theorem padEven_length_even (l : List String) : (padEven l).length % 2 = 0 := by
  rw [length_padEven]
  split <;> omega

theorem padEven_getD (l : List String) (i : Nat) (d : String) (h : i < l.length) :
    (padEven l).getD i d = l.getD i d := by
  rw [padEven]
  split
  · rw [List.getD_append _ _ _ _ h]
  · rfl

theorem hashPairs_getD : ∀ (l : List String) (j : Nat) (d : String),
    2 * j + 1 < l.length →
    (hashPairs l).getD j d = combineHex (l.getD (2 * j) d) (l.getD (2 * j + 1) d)
  | x :: y :: rest, 0, d, _ => by simp [hashPairs]
  | x :: y :: rest, j + 1, d, h => by
      have ih := hashPairs_getD rest j d (by simp at h; omega)
      have e1 : 2 * (j + 1) = 2 * j + 1 + 1 := by omega
      rw [e1]
      simp only [hashPairs, List.getD_cons_succ]
      exact ih
  | [], j, d, h => by simp at h
  | [x], j, d, h => by simp at h

theorem proofStepOfLevel_eq : ∀ (l : List String) (idx : Nat), idx < l.length →
    l.length % 2 = 0 →
    proofStepOfLevel l idx =
      some (if idx % 2 = 0 then ⟨"right", l.getD (idx + 1) ""⟩
            else ⟨"left", l.getD (idx - 1) ""⟩)
  | x :: y :: rest, 0, _, _ => by simp [proofStepOfLevel]
  | x :: y :: rest, 1, _, _ => by simp [proofStepOfLevel]
  | x :: y :: rest, idx + 2, h, he => by
      have ih := proofStepOfLevel_eq rest idx (by simp at h; omega)
        (by simp at he; omega)
      have hp : (idx + 2) % 2 = idx % 2 := by omega
      simp only [proofStepOfLevel, hp]
      by_cases hpar : idx % 2 = 0
      · simp [ih, hpar]
      · obtain ⟨k, rfl⟩ : ∃ k, idx = k + 1 := ⟨idx - 1, by omega⟩
        simp [ih, hpar]
  | [], idx, h, _ => by simp at h
  | [x], idx, h, he => by simp at he

theorem reduceRoot_step (level : List String) (h : 1 < level.length) :
    reduceRoot level = reduceRoot (hashPairs (padEven level)) := by
  conv_lhs => rw [reduceRoot]
  rw [if_pos h]

theorem reduceRoot_small (level : List String) (h : ¬ 1 < level.length) :
    reduceRoot level = level.headD "" := by
  conv_lhs => rw [reduceRoot]
  rw [if_neg h]

theorem buildProofLoop_step (level : List String) (idx : Nat) (s : ProofStep)
    (h : 1 < level.length) (hs : proofStepOfLevel (padEven level) idx = some s) :
    buildProofLoop level idx =
      s :: buildProofLoop (hashPairs (padEven level)) (idx / 2) := by
  conv_lhs => rw [buildProofLoop]
  rw [if_pos h, hs]
  rfl

theorem buildProofLoop_small (level : List String) (idx : Nat)
    (h : ¬ 1 < level.length) : buildProofLoop level idx = [] := by
  conv_lhs => rw [buildProofLoop]
  rw [if_neg h]

theorem verifyFold_cons_left (cur : String) (s : ProofStep) (rest : List ProofStep)
    (h : s.position = "left") :
    verifyFold cur (s :: rest) = verifyFold (combineHex s.hash cur) rest := by
  simp [verifyFold, h]

theorem verifyFold_cons_right (cur : String) (s : ProofStep) (rest : List ProofStep)
    (h : s.position = "right") :
    verifyFold cur (s :: rest) = verifyFold (combineHex cur s.hash) rest := by
  simp [verifyFold, h]

/-- Folding the proof the loop builds for a valid tracked index recomputes
exactly the root the level reduction computes. -/
theorem verifyFold_buildProofLoop (n : Nat) : ∀ (level : List String) (idx : Nat),
    level.length ≤ n → idx < level.length →
    verifyFold (level.getD idx "") (buildProofLoop level idx) =
      .ok (reduceRoot level) := by
  induction n with
  | zero =>
    intro level idx hn hidx
    omega
  | succ n ih =>
    intro level idx hn hidx
    by_cases hbig : 1 < level.length
    · have hplen : (padEven level).length % 2 = 0 := padEven_length_even level
      have hbounds : level.length ≤ (padEven level).length ∧
          (padEven level).length ≤ level.length + 1 := by
        rw [length_padEven]
        split <;> omega
      have hidx' : idx < (padEven level).length := lt_of_lt_of_le hidx hbounds.1
      have hhplen : (hashPairs (padEven level)).length = (padEven level).length / 2 :=
        hashPairs_length (padEven level)
      have hnext : (hashPairs (padEven level)).length ≤ n := by omega
      have hidxnext : idx / 2 < (hashPairs (padEven level)).length := by omega
      have hrstep := reduceRoot_step level hbig
      rw [← padEven_getD level idx "" hidx]
      by_cases hpar : idx % 2 = 0
      · have hs : proofStepOfLevel (padEven level) idx =
            some ⟨"right", (padEven level).getD (idx + 1) ""⟩ := by
          rw [proofStepOfLevel_eq (padEven level) idx hidx' hplen, if_pos hpar]
        rw [buildProofLoop_step level idx _ hbig hs,
          verifyFold_cons_right _ _ _ rfl]
        have hcomb : combineHex ((padEven level).getD idx "")
            ((padEven level).getD (idx + 1) "") =
            (hashPairs (padEven level)).getD (idx / 2) "" := by
          have h2j : 2 * (idx / 2) = idx := by omega
          rw [hashPairs_getD (padEven level) (idx / 2) "" (by omega), h2j]
        rw [hcomb, ih (hashPairs (padEven level)) (idx / 2) hnext hidxnext, hrstep]
      · have hs : proofStepOfLevel (padEven level) idx =
            some ⟨"left", (padEven level).getD (idx - 1) ""⟩ := by
          rw [proofStepOfLevel_eq (padEven level) idx hidx' hplen, if_neg hpar]
        rw [buildProofLoop_step level idx _ hbig hs,
          verifyFold_cons_left _ _ _ rfl]
        have hcomb : combineHex ((padEven level).getD (idx - 1) "")
            ((padEven level).getD idx "") =
            (hashPairs (padEven level)).getD (idx / 2) "" := by
          have h2j : 2 * (idx / 2) = idx - 1 := by omega
          have h2j1 : 2 * (idx / 2) + 1 = idx := by omega
          rw [hashPairs_getD (padEven level) (idx / 2) "" (by omega), h2j1, h2j]
        rw [hcomb, ih (hashPairs (padEven level)) (idx / 2) hnext hidxnext, hrstep]
    · rw [buildProofLoop_small level idx hbig, reduceRoot_small level hbig]
      have h0 : idx = 0 := by omega
      subst h0
      rcases level with _ | ⟨x, t⟩
      · simp at hidx
      · simp [verifyFold]

/-- The code's verification fold agrees with the spec's description of the
fold: same final `current` on well-formed steps, an error exactly on an
invalid position. -/
theorem verifyFold_agrees_specFold : ∀ (proof : List ProofStep) (current : String),
    (specFoldCurrent current proof = none →
      ∃ msg, verifyFold current proof = .error msg) ∧
    (∀ c, specFoldCurrent current proof = some c → verifyFold current proof = .ok c)
  | [], current => by
      constructor
      · intro h
        simp [specFoldCurrent] at h
      · intro c hc
        simp [specFoldCurrent] at hc
        subst hc
        rfl
  | step :: rest, current => by
      by_cases hl : step.position = "left"
      · have ih := verifyFold_agrees_specFold rest (combineHex step.hash current)
        constructor
        · intro h
          simp only [specFoldCurrent, hl, if_pos] at h
          simp only [verifyFold, hl, if_pos]
          exact ih.1 h
        · intro c hc
          simp only [specFoldCurrent, hl, if_pos] at hc
          simp only [verifyFold, hl, if_pos]
          exact ih.2 c hc
      · by_cases hr : step.position = "right"
        · have ih := verifyFold_agrees_specFold rest (combineHex current step.hash)
          constructor
          · intro h
            simp only [specFoldCurrent, hl, hr, if_neg, if_pos] at h
            simp only [verifyFold, hl, hr, if_neg, if_pos]
            exact ih.1 h
          · intro c hc
            simp only [specFoldCurrent, hl, hr, if_neg, if_pos] at hc
            simp only [verifyFold, hl, hr, if_neg, if_pos]
            exact ih.2 c hc
        · constructor
          · intro _
            refine ⟨"Invalid proof position: " ++ step.position, ?_⟩
            simp [verifyFold, hl, hr]
          · intro c hc
            simp [specFoldCurrent, hl, hr] at hc

theorem except_map_ok {e a b : Type} (f : a → b) (x : a) :
    Except.map f (Except.ok x : Except e a) = Except.ok (f x) := rfl

theorem except_map_error {e a b : Type} (f : a → b) (err : e) :
    Except.map f (Except.error err : Except e a) = Except.error err := rfl

/-! ## Claims about `app/merkle.py` -/

/-- Claim C1: For every non-empty list `L` of 64-character hex digests and
every index `i` with `0 <= i < len(L)`,
`verify_merkle_proof(L[i], build_merkle_root(L), build_merkle_proof(L, i))`
returns true. -/
theorem merkle_roundtrip_verifies (L : List String) (i : Nat)
    (hhex : ∀ s ∈ L, isHex64 s = true) (hi : i < L.length) :
    ∃ p, build_merkle_proof L i = some p ∧
      verify_merkle_proof (L.getD i "") (build_merkle_root L) p = .ok true := by
  refine ⟨buildProofLoop L i, ?_, ?_⟩
  · rw [build_merkle_proof, if_pos hi]
  · have hne : ¬ L = [] := by
      intro h
      subst h
      simp at hi
    rw [build_merkle_root, if_neg hne, verify_merkle_proof,
      verifyFold_buildProofLoop L.length L i le_rfl hi]
    simp [except_map_ok]

/-- Witness for C1 at the concrete two-leaf list. -/
theorem merkle_roundtrip_verifies_witness :
    (∀ s ∈ ["aaaaaaaaaaaaaaaaaaaaaaaaaaaaaaaaaaaaaaaaaaaaaaaaaaaaaaaaaaaaaaaa", "bbbbbbbbbbbbbbbbbbbbbbbbbbbbbbbbbbbbbbbbbbbbbbbbbbbbbbbbbbbbbbbb"], isHex64 s = true) ∧
    1 < (["aaaaaaaaaaaaaaaaaaaaaaaaaaaaaaaaaaaaaaaaaaaaaaaaaaaaaaaaaaaaaaaa", "bbbbbbbbbbbbbbbbbbbbbbbbbbbbbbbbbbbbbbbbbbbbbbbbbbbbbbbbbbbbbbbb"] : List String).length ∧
    ∃ p, build_merkle_proof ["aaaaaaaaaaaaaaaaaaaaaaaaaaaaaaaaaaaaaaaaaaaaaaaaaaaaaaaaaaaaaaaa", "bbbbbbbbbbbbbbbbbbbbbbbbbbbbbbbbbbbbbbbbbbbbbbbbbbbbbbbbbbbbbbbb"] 1 = some p ∧
      verify_merkle_proof ((["aaaaaaaaaaaaaaaaaaaaaaaaaaaaaaaaaaaaaaaaaaaaaaaaaaaaaaaaaaaaaaaa", "bbbbbbbbbbbbbbbbbbbbbbbbbbbbbbbbbbbbbbbbbbbbbbbbbbbbbbbbbbbbbbbb"] : List String).getD 1 "")
        (build_merkle_root ["aaaaaaaaaaaaaaaaaaaaaaaaaaaaaaaaaaaaaaaaaaaaaaaaaaaaaaaaaaaaaaaa", "bbbbbbbbbbbbbbbbbbbbbbbbbbbbbbbbbbbbbbbbbbbbbbbbbbbbbbbbbbbbbbbb"]) p = .ok true :=
  ⟨by decide, by decide,
   merkle_roundtrip_verifies ["aaaaaaaaaaaaaaaaaaaaaaaaaaaaaaaaaaaaaaaaaaaaaaaaaaaaaaaaaaaaaaaa", "bbbbbbbbbbbbbbbbbbbbbbbbbbbbbbbbbbbbbbbbbbbbbbbbbbbbbbbbbbbbbbbb"] 1 (by decide) (by decide)⟩

/-- Claim C5: `verify_merkle_proof` folds `current` from `leaf` through the
steps in order ("left": sibling on the left, "right": sibling on the right,
anything else raises), and succeeds iff the final `current` equals `root`. -/
theorem verify_merkle_proof_fold_spec (leaf root : String) (proof : List ProofStep) :
    (specFoldCurrent leaf proof = none →
      ∃ msg, verify_merkle_proof leaf root proof = .error msg) ∧
    (∀ c, specFoldCurrent leaf proof = some c →
      verify_merkle_proof leaf root proof = .ok (c == root) ∧
      (verify_merkle_proof leaf root proof = .ok true ↔ c = root)) := by
  have h := verifyFold_agrees_specFold proof leaf
  constructor
  · intro hn
    obtain ⟨msg, hm⟩ := h.1 hn
    exact ⟨msg, by rw [verify_merkle_proof, hm]; rfl⟩
  · intro c hc
    have hok := h.2 c hc
    refine ⟨by rw [verify_merkle_proof, hok]; rfl, ?_⟩
    rw [verify_merkle_proof, hok]
    constructor
    · intro he
      simpa [except_map_ok] using he
    · intro he
      subst he
      simp [except_map_ok]

/-- Witness for C5: an invalid position errors; an empty fold compares. -/
theorem verify_merkle_proof_fold_spec_witness :
    (∃ msg, verify_merkle_proof "ab" "cd" [⟨"up", "ef"⟩] = .error msg) ∧
    verify_merkle_proof "ab" "cd" [] = .ok ("ab" == "cd") :=
  ⟨(verify_merkle_proof_fold_spec "ab" "cd" [⟨"up", "ef"⟩]).1 (by decide),
   ((verify_merkle_proof_fold_spec "ab" "cd" []).2 "ab" (by decide)).1⟩

/-- Claim C6: `build_merkle_root([])` is the 64-character all-zero string. -/
theorem build_merkle_root_nil_sentinel :
    build_merkle_root [] = "0000000000000000000000000000000000000000000000000000000000000000" ∧
    (build_merkle_root []).length = 64 := by
  constructor
  · decide
  · decide

/-- Claim C7: A three-leaf root equals the two-node root whose second input
is the duplicated third leaf: odd levels duplicate their last element. -/
theorem build_merkle_root_odd_duplicates_last (h1 h2 h3 : String)
    (hh1 : isHex64 h1 = true) (hh2 : isHex64 h2 = true) (hh3 : isHex64 h3 = true) :
    build_merkle_root [h1, h2, h3] =
      build_merkle_root
        [sha256_hex (bytesFromHex h1 ++ bytesFromHex h2),
         sha256_hex (bytesFromHex h3 ++ bytesFromHex h3)] := by
  have hpad : padEven [h1, h2, h3] = [h1, h2, h3, h3] := by
    simp [padEven, List.getLastD_cons, List.getLastD_nil]
  have hhp : hashPairs [h1, h2, h3, h3] = [combineHex h1 h2, combineHex h3 h3] := rfl
  rw [build_merkle_root, if_neg (by simp), build_merkle_root, if_neg (by simp)]
  rw [reduceRoot_step _ (by simp), hpad, hhp]
  rfl

/-- Witness for C7 at the all-zero digest. -/
theorem build_merkle_root_odd_duplicates_last_witness :
    isHex64 "0000000000000000000000000000000000000000000000000000000000000000" = true ∧
    build_merkle_root ["0000000000000000000000000000000000000000000000000000000000000000", "0000000000000000000000000000000000000000000000000000000000000000", "0000000000000000000000000000000000000000000000000000000000000000"] =
      build_merkle_root
        [sha256_hex (bytesFromHex "0000000000000000000000000000000000000000000000000000000000000000" ++ bytesFromHex "0000000000000000000000000000000000000000000000000000000000000000"),
         sha256_hex (bytesFromHex "0000000000000000000000000000000000000000000000000000000000000000" ++ bytesFromHex "0000000000000000000000000000000000000000000000000000000000000000")] :=
  ⟨by decide,
   build_merkle_root_odd_duplicates_last _ _ _ (by decide) (by decide) (by decide)⟩

/-- Claim C10: With an empty proof, verification raises nothing and returns
true iff `leaf` equals `root`; the proof for the single leaf of a
one-element list is the empty list. -/
theorem verify_empty_proof_degenerates (leaf root x : String) :
    verify_merkle_proof leaf root [] = .ok (leaf == root) ∧
    (verify_merkle_proof leaf root [] = .ok true ↔ leaf = root) ∧
    build_merkle_proof [x] 0 = some [] := by
  refine ⟨rfl, ?_, ?_⟩
  · constructor
    · intro h
      simpa [verify_merkle_proof, verifyFold, except_map_ok] using h
    · intro h
      subst h
      simp [verify_merkle_proof, verifyFold, except_map_ok]
  · rw [build_merkle_proof, if_pos (by simp), buildProofLoop_small _ _ (by simp)]

/-! ## Lemmas about storage and batching -/

theorem build_merkle_root_singleton (x : String) : build_merkle_root [x] = x := by
  rw [build_merkle_root, if_neg (by simp), reduceRoot_small _ (by simp)]
  rfl

theorem build_merkle_root_pair (a b : String) :
    build_merkle_root [a, b] = combineHex a b := by
  rw [build_merkle_root, if_neg (by simp), reduceRoot_step _ (by simp)]
  have hpad : padEven [a, b] = [a, b] := by simp [padEven]
  rw [hpad]
  have hhp : hashPairs [a, b] = [combineHex a b] := rfl
  rw [hhp, reduceRoot_small _ (by simp)]
  rfl

theorem mem_insertByTs (x a : EnergyLog) : ∀ l : List EnergyLog,
    a ∈ insertByTs x l ↔ a = x ∨ a ∈ l
  | [] => by simp [insertByTs]
  | y :: rest => by
      have ih := mem_insertByTs x a rest
      rw [insertByTs]
      split
      · simp [ih]
        tauto
      · simp

theorem mem_sortByTsStart (a : EnergyLog) : ∀ l : List EnergyLog,
    a ∈ sortByTsStart l ↔ a ∈ l
  | [] => by simp [sortByTsStart]
  | x :: rest => by
      have ih := mem_sortByTsStart a rest
      rw [sortByTsStart, mem_insertByTs]
      simp [ih]

theorem sortByTsStart_nil : sortByTsStart [] = [] := rfl

/-- After a successful flush every log row carries a batch id, so the
unbatched set is empty. -/
theorem get_unbatched_logs_after_flush (st : Storage) (now : Datetime)
    (b : EnergyBatch) (logs : List EnergyLog) (st' : Storage)
    (h : flush_batch st now = .ok (b, logs, st')) :
    get_unbatched_logs st' = [] := by
  by_cases hemp : get_unbatched_logs st = []
  · rw [flush_batch, if_pos hemp] at h
    exact absurd h (by simp)
  · rw [flush_batch, if_neg hemp] at h
    have hids : ¬ (get_unbatched_logs st).map (fun l => l.id) = [] := by
      simpa [List.map_eq_nil_iff] using hemp
    have hst' : st' = set_batch_for_logs
        (save_batch st
          { id := batchIdOf now, created_at := now,
            log_ids := (get_unbatched_logs st).map (fun l => l.id),
            merkle_root := build_merkle_root
              ((get_unbatched_logs st).map (fun l => l.leaf_hash)),
            log_count := ((get_unbatched_logs st).map (fun l => l.id)).length,
            anchor_status := "pending", anchor_txid := none,
            anchor_block_hash := none, anchor_block_height := none,
            anchor_block_time := none })
        (batchIdOf now) ((get_unbatched_logs st).map (fun l => l.id)) := by
      have := h
      injection this with h1
      injection h1 with hb hrest
      injection hrest with hl hs
      exact hs.symm
    subst hst'
    have hfil : (List.filter (fun l => l.batch_id == none)
        (st.energy_logs.map (fun l =>
          if l.id ∈ (get_unbatched_logs st).map (fun l => l.id) then
            { l with batch_id := some (batchIdOf now) } else l))) = [] := by
      rw [List.filter_eq_nil_iff]
      intro a ha
      obtain ⟨l, hl, rfl⟩ := List.mem_map.mp ha
      by_cases hin : l.id ∈ (get_unbatched_logs st).map (fun l => l.id)
      · simp [hin]
      · simp only [hin, if_neg, ite_false]
        intro hnone
        apply hin
        have hlnone : l.batch_id = none := by
          simpa using hnone
        have hlmem : l ∈ get_unbatched_logs st := by
          rw [get_unbatched_logs, mem_sortByTsStart, List.mem_filter]
          exact ⟨hl, by simp [hlnone]⟩
        exact List.mem_map.mpr ⟨l, hlmem, rfl⟩
    rw [get_unbatched_logs, set_batch_for_logs, if_neg hids]
    show sortByTsStart (List.filter (fun l => l.batch_id == none)
      (st.energy_logs.map (fun l =>
        if l.id ∈ (get_unbatched_logs st).map (fun l => l.id) then
          { l with batch_id := some (batchIdOf now) } else l))) = []
    rw [hfil, sortByTsStart_nil]

/-- Claim C9: `flush_batch` fails with `NoUnbatchedLogs` iff the unbatched
set is empty; after a successful flush, an immediate second flush fails. -/
theorem flush_batch_no_unbatched (st : Storage) (now : Datetime) :
    (flush_batch st now = .error "No unbatched logs available" ↔
      get_unbatched_logs st = []) ∧
    (∀ b logs st', flush_batch st now = .ok (b, logs, st') →
      ∀ now2, flush_batch st' now2 = .error "No unbatched logs available") := by
  constructor
  · by_cases hemp : get_unbatched_logs st = []
    · rw [flush_batch, if_pos hemp]
      simp [hemp]
    · rw [flush_batch, if_neg hemp]
      simp [hemp]
  · intro b logs st' h now2
    have hdone := get_unbatched_logs_after_flush st now b logs st' h
    rw [flush_batch, if_pos hdone]

/-! ## Evaluation of the concrete scenario -/

/-- Flushing the one-log store at `dtA`. -/
theorem flush_st0_eval : flush_batch st0 dtA = .ok (batch1, [log1], st1) := by
  have hu : get_unbatched_logs st0 = [log1] := rfl
  rw [flush_batch, hu]
  simp [batch1, row1, log1s, st1, save_batch, set_batch_for_logs, log1, st0]

/-- Ingesting `log2` into the flushed store. -/
theorem save_log_st1_eval : save_log st1 log2 = st2 := rfl

/-- Flushing again at a `now` in the same second: the minted id collides. -/
theorem flush_st2_eval : flush_batch st2 dtA = .ok (batch2, [log2], st3) := by
  have hu : get_unbatched_logs st2 = [log2] := by decide
  rw [flush_batch, hu]
  simp [batch2, row2, log2s, st3, save_batch, set_batch_for_logs, log2, st2,
    log1s, log1, row1]

theorem get_log_id (st : Storage) (l : EnergyLog) (log_id : String)
    (h : get_log st log_id = some l) : l.id = log_id := by
  have := List.find?_some h
  simpa using this

theorem get_log_mem (st : Storage) (l : EnergyLog) (log_id : String)
    (h : get_log st log_id = some l) : l ∈ st.energy_logs :=
  List.mem_of_find?_eq_some h

/-- Witness for C9: flushing the already-flushed store errors. -/
theorem flush_batch_no_unbatched_witness :
    flush_batch st1 dtB = .error "No unbatched logs available" :=
  (flush_batch_no_unbatched st0 dtA).2 batch1 [log1] st1 flush_st0_eval dtB

/-- Counterexample to C3: the batch read back from storage carries
`log_count = 1` but `log_ids = []`. -/
theorem stored_batch_log_count_mismatch :
    get_batch stCorrupt "batch_x" = some (batch_from_row rowX) ∧
    (batch_from_row rowX).log_count = 1 ∧
    (batch_from_row rowX).log_ids.length = 0 ∧
    ¬ (batch_from_row rowX).log_count = (batch_from_row rowX).log_ids.length :=
  ⟨rfl, rfl, rfl, by decide⟩

/-- Claim C3, amended: The batch `flush_batch` returns satisfies
`log_count = len(log_ids)`; every batch read back from storage (`get_batch`,
`list_batches`) instead carries the literal `log_ids = []`, whatever its
stored `log_count`. -/
theorem flush_batch_log_count_consistent (st : Storage) (now : Datetime) :
    (∀ b logs st', flush_batch st now = .ok (b, logs, st') →
      b.log_count = b.log_ids.length) ∧
    (∀ bid b2, get_batch st bid = some b2 → b2.log_ids = []) ∧
    (∀ b2, b2 ∈ list_batches st → b2.log_ids = []) := by
  refine ⟨?_, ?_, ?_⟩
  · intro b logs st' h
    by_cases hemp : get_unbatched_logs st = []
    · rw [flush_batch, if_pos hemp] at h
      exact absurd h (by simp)
    · rw [flush_batch, if_neg hemp] at h
      injection h with h1
      injection h1 with hb hrest
      subst hb
      rfl
  · intro bid b2 h
    rw [get_batch] at h
    rcases hfind : Storage.energy_batches st |>.find? (fun b => b.id == bid) with _ | row
    · rw [hfind] at h
      simp at h
    · rw [hfind] at h
      have hrow : batch_from_row row = b2 := by
        simpa using h
      rw [← hrow]
      rfl
  · intro b2 h
    rw [list_batches] at h
    obtain ⟨row, _, hrow⟩ := List.mem_map.mp h
    rw [← hrow]
    rfl

/-- Witness for the amended C3: a flushed batch is consistent; read-back
always yields the literal `log_ids = []`. -/
theorem flush_batch_log_count_consistent_witness :
    batch1.log_count = batch1.log_ids.length ∧
    (batch_from_row rowX).log_ids = [] ∧
    (batch_from_row rowX).log_ids = [] :=
  ⟨(flush_batch_log_count_consistent st0 dtA).1 batch1 [log1] st1 flush_st0_eval,
   (flush_batch_log_count_consistent stCorrupt dtA).2.1 "batch_x"
     (batch_from_row rowX) rfl,
   (flush_batch_log_count_consistent stCorrupt dtA).2.2
     (batch_from_row rowX) (by decide)⟩

/-- Claim C4, code bug: Two `datetime`s in the same second (differing only in
microseconds) mint the same batch id, and `save_batch` resolves the id
collision by silently replacing the stored row: after saving a batch with
the colliding id the table holds only the new row, the old batch is gone. -/
theorem batch_id_collision_same_second :
    batchIdOf dtA = batchIdOf dtASameSec ∧
    dtA ≠ dtASameSec ∧
    (save_batch { energy_logs := [], energy_batches := [rowC4old] }
      batchC4new).energy_batches = [rowC4new] :=
  ⟨by decide, by decide, by decide⟩

/-- Claim C8: `get_log_proof` fails 404 on an unknown log, 400 on an
unbatched log, 404 on a dangling batch reference, and 500 (surfaced, no
proof returned) when the recomputed root mismatches the stored root. -/
theorem get_log_proof_failure_modes (st : Storage) (log_id : String) :
    (get_log st log_id = none →
      get_log_proof st log_id = .error ⟨404, "Log not found"⟩) ∧
    (∀ log, get_log st log_id = some log → log.batch_id = none →
      get_log_proof st log_id =
        .error ⟨400, "Log has not been assigned to a batch yet"⟩) ∧
    (∀ log bid, get_log st log_id = some log → log.batch_id = some bid →
      get_batch st bid = none →
      get_log_proof st log_id = .error ⟨404, "Batch not found"⟩) ∧
    (∀ log bid batch, get_log st log_id = some log → log.batch_id = some bid →
      get_batch st bid = some batch →
      build_merkle_root ((get_logs_by_batch st bid).map (fun l => l.leaf_hash)) ≠
        batch.merkle_root →
      get_log_proof st log_id =
        .error ⟨500, "Merkle root mismatch for batch; stored root may be inconsistent"⟩) := by
  refine ⟨?_, ?_, ?_, ?_⟩
  · intro h
    simp [get_log_proof, h]
  · intro log hlog hnone
    simp [get_log_proof, hlog, hnone]
  · intro log bid hlog hbid hbatch
    simp [get_log_proof, hlog, hbid, hbatch]
  · intro log bid batch hlog hbid hbatch hne
    have hid := get_log_id st log log_id hlog
    have hmem := get_log_mem st log log_id hlog
    have hmem2 : log ∈ get_logs_by_batch st bid := by
      rw [get_logs_by_batch, mem_sortByTsStart, List.mem_filter]
      exact ⟨hmem, by simp [hbid]⟩
    have hmemid : log_id ∈ (get_logs_by_batch st bid).map (fun l => l.id) :=
      List.mem_map.mpr ⟨log, hmem2, hid⟩
    rcases hfind : List.findIdx? (fun i => i == log_id)
        ((get_logs_by_batch st bid).map (fun l => l.id)) with _ | index
    · exfalso
      rw [List.findIdx?_eq_none_iff] at hfind
      have := hfind log_id hmemid
      simp at this
    · simp only [get_log_proof, hlog, hbid, hbatch, hfind]
      rw [if_pos hne]

/-- Witness for C8: the four failure modes at concrete stores. -/
theorem get_log_proof_failure_modes_witness :
    get_log_proof st0 "log_9" = .error ⟨404, "Log not found"⟩ ∧
    get_log_proof st0 "log_1" =
      .error ⟨400, "Log has not been assigned to a batch yet"⟩ ∧
    get_log_proof stOrphan "log_1" = .error ⟨404, "Batch not found"⟩ ∧
    get_log_proof stCorrupt "log_1" =
      .error ⟨500, "Merkle root mismatch for batch; stored root may be inconsistent"⟩ :=
  ⟨(get_log_proof_failure_modes st0 "log_9").1 rfl,
   (get_log_proof_failure_modes st0 "log_1").2.1 log1 rfl rfl,
   (get_log_proof_failure_modes stOrphan "log_1").2.2.1 log1s (batchIdOf dtA)
     rfl rfl rfl,
   (get_log_proof_failure_modes stCorrupt "log_1").2.2.2 logX "batch_x"
     (batch_from_row rowX) rfl rfl rfl
     (by
       show build_merkle_root [leafA] ≠ leafB
       rw [build_merkle_root_singleton]
       decide)⟩

/-- Claim C2, code bug: A batch created by `flush_batch` whose id is reused
by a same-second flush ends in a state where recomputing the root over the
batch members returned by `get_logs_by_batch` no longer reproduces the
stored `merkle_root`: the invariant is broken by the program's own
operations (flush, ingest, flush). -/
theorem batch_root_invariant_broken_by_id_collision :
    flush_batch st0 dtA = .ok (batch1, [log1], st1) ∧
    save_log st1 log2 = st2 ∧
    flush_batch st2 dtA = .ok (batch2, [log2], st3) ∧
    batch2.id = batch1.id ∧
    get_batch st3 batch1.id = some (batch_from_row row2) ∧
    build_merkle_root
        ((get_logs_by_batch st3 batch1.id).map (fun l => l.leaf_hash)) ≠
      (batch_from_row row2).merkle_root := by
  refine ⟨flush_st0_eval, save_log_st1_eval, flush_st2_eval, rfl, rfl, ?_⟩
  show build_merkle_root [leafA, leafB] ≠ build_merkle_root [leafB]
  rw [build_merkle_root_pair, build_merkle_root_singleton]
  decide

end KwhBtcIot
